import Mathlib

/-!
# Verification of the COVID-website data-preparation pipeline

Shallow embedding of the data-transformation pipeline of the repository
(`covid_cases.py`, `covid_deaths.py`, `covid_tables.py`).  The cases and
deaths pipelines are textually identical up to column names, so a single
embedding covers both.

Modelling conventions:
* dates are day numbers (`ℕ`); pandas parses them from the CSV header and
  only their order matters to the pipeline;
* numeric cell values are `ℚ` (the float arithmetic of the source is exact
  on the operations used, apart from NaN/inf which are modelled below);
* a pandas `NaN` cell is `Option.none`; column operations propagate `none`
  exactly where pandas propagates `NaN` (`np.where(x < 0, 0, x)` leaves
  `NaN` in place because `NaN < 0` is false; `rolling(..., min_periods=1)`
  skips `NaN` entries and yields `NaN` only when the window has no valid
  entry; `dropna()` removes a row when any modelled column is `none`);
* a division whose denominator is zero yields a non-finite float
  (`NaN` for `0/0`, `±inf` otherwise); both are modelled as `none`.
-/

namespace Covid

/-- One row of the melted CSSE table before grouping
(`pd.melt` output in `prepare_data_1`): a sub-region observation.
`province_state` is the optional sub-region column. -/
structure RawRow where
  province_state : String
  country : String
  date : ℕ
  value : ℚ
deriving DecidableEq, Repr

/-- One row of the grouped long table (`prepare_data_1` output):
a single (country, date) observation. -/
structure Obs where
  country : String
  date : ℕ
  value : ℚ
deriving DecidableEq, Repr

/-- The distinct (country, date) keys of the melted table, in first
occurrence order (`groupby(['country', 'date'])` group keys). -/
def obsKeys (rows : List RawRow) : List (String × ℕ) :=
  (rows.map fun r => (r.country, r.date)).dedup

/-- Sum of the value column over the rows of one (country, date) group. -/
def keySum (rows : List RawRow) (k : String × ℕ) : ℚ :=
  ((rows.filter fun r => decide (r.country = k.1 ∧ r.date = k.2)).map
    RawRow.value).sum

/-- `CasesData.prepare_data_1` / `DeathsData.prepare_data_1` after the melt:
group the sub-region rows by (country, date) and sum the value column
(`groupby(['country', 'date'], as_index=False)['cases'].sum()`). -/
def prepare_data_1 (rows : List RawRow) : List Obs :=
  (obsKeys rows).map fun k => ⟨k.1, k.2, keySum rows k⟩

/-- Reference metadata attached by `merge_metrics` through the `countre`
lookup; `population` is nullable (`metrics.replace('', np.nan)`). -/
structure Metadata where
  iso3 : String
  population : Option ℚ
  continent : String
deriving DecidableEq, Repr

/-- The observations of one country as consumed by `prepare_data_2`: the
(date, cumulative value) pairs in ascending date order (the stage-1
`groupby` emits rows sorted by country and date) together with the merged
metadata of the country. -/
structure EntitySeries where
  country : String
  meta : Metadata
  obs : List (ℕ × ℚ)
deriving DecidableEq, Repr

/-- One row of the derived frame built by `prepare_data_2`.  Option-valued
columns model nullable (NaN-able) pandas columns. -/
structure Row where
  country : String
  date : ℕ
  cumulative : ℚ
  population : Option ℚ
  per_capita : Option ℚ
  daily : Option ℚ
  daily_million : Option ℚ
  rolling7 : Option ℚ
  rolling7_million : Option ℚ
deriving DecidableEq, Repr

/-- Placeholder row used as an out-of-range default for list indexing. -/
def defaultRow : Row :=
  ⟨"", 0, 0, none, none, none, none, none, none⟩

/-- `groupby('country')[col].apply(lambda x: x.diff())` within one group:
NaN for the group's first row, consecutive difference afterwards. -/
def diffCol (cums : List ℚ) : List (Option ℚ) :=
  none :: List.zipWith (fun prev next => some (next - prev)) cums cums.tail

/-- `np.where(col < 0, 0, col)`: negative entries are clamped to 0;
`NaN < 0` is false, so NaN entries stay NaN. -/
def clampCol (col : List (Option ℚ)) : List (Option ℚ) :=
  col.map fun d => d.map fun x => if x < 0 then 0 else x

/-- `col / population * 1000000`: NaN whenever either operand is NaN. -/
def perMillionCol (pop : Option ℚ) (col : List (Option ℚ)) :
    List (Option ℚ) :=
  col.map fun d =>
    match d, pop with
    | some x, some p => some (x / p * 1000000)
    | _, _ => none

/-- The valid (non-NaN) entries of the 7-entry trailing window ending at
index `i` of a column. -/
def windowVals (col : List (Option ℚ)) (i : ℕ) : List ℚ :=
  ((col.take (i + 1)).drop (i + 1 - 7)).filterMap id

/-- `rolling(window=7, min_periods=1).mean()`: the mean of the valid
entries of the trailing window, NaN when the window has no valid entry. -/
def rollingCol (col : List (Option ℚ)) : List (Option ℚ) :=
  (List.range col.length).map fun i =>
    let vals := windowVals col i
    if vals.length = 0 then none else some (vals.sum / (vals.length : ℚ))

/-- Row `i` of the derived frame for one country: all columns computed by
`prepare_data_2` before the `dropna()` call. -/
def buildRow (e : EntitySeries) (i : ℕ) : Row :=
  let cums := e.obs.map Prod.snd
  let pop := e.meta.population
  let daily := clampCol (diffCol cums)
  { country := e.country
    date := (e.obs.map Prod.fst).getD i 0
    cumulative := cums.getD i 0
    population := pop
    per_capita := (cums.map fun c => pop.map fun p => c / p * 1000000).getD i none
    daily := daily.getD i none
    daily_million := (perMillionCol pop daily).getD i none
    rolling7 := (rollingCol daily).getD i none
    rolling7_million := (perMillionCol pop (rollingCol daily)).getD i none }

/-- The derived rows of one country, before `dropna()`. -/
def entityRows (e : EntitySeries) : List Row :=
  (List.range e.obs.length).map (buildRow e)

/-- `dropna()` row predicate: every nullable column is present. -/
def rowComplete (r : Row) : Bool :=
  r.population.isSome && r.per_capita.isSome && r.daily.isSome &&
    r.daily_million.isSome && r.rolling7.isSome && r.rolling7_million.isSome

/-- The ordering of the final `sort_values(['country', 'date'])`: by
country name ascending, then by date ascending. -/
def rowLe (r s : Row) : Prop :=
  r.country < s.country ∨ (r.country = s.country ∧ r.date ≤ s.date)

instance : DecidableRel rowLe := fun r s =>
  decidable_of_iff
    (r.country < s.country ∨ (r.country = s.country ∧ r.date ≤ s.date))
    Iff.rfl

instance : IsTotal Row rowLe where
  total a b := by
    rcases lt_trichotomy a.country b.country with h | h | h
    · exact Or.inl (Or.inl h)
    · rcases Nat.le_total a.date b.date with hd | hd
      · exact Or.inl (Or.inr ⟨h, hd⟩)
      · exact Or.inr (Or.inr ⟨h.symm, hd⟩)
    · exact Or.inr (Or.inl h)

instance : IsTrans Row rowLe where
  trans a b c hab hbc := by
    rcases hab with h1 | ⟨h1, d1⟩ <;> rcases hbc with h2 | ⟨h2, d2⟩
    · exact Or.inl (h1.trans h2)
    · exact Or.inl (h2 ▸ h1)
    · exact Or.inl (h1 ▸ h2)
    · exact Or.inr ⟨h1.trans h2, d1.trans d2⟩

/-- `CasesData.prepare_data_2` / `DeathsData.prepare_data_2` after the
metadata merge: per-country derived columns, `dropna()`, then the final
`sort_values(['country', 'date'])`. -/
def prepare_data_2 (es : List EntitySeries) : List Row :=
  List.insertionSort rowLe (((es.map entityRows).flatten).filter rowComplete)

/-- A country series used in witnesses: the cumulative count dips from 5
to 3 before rising again, as after a downward revision. -/
def exSeries : EntitySeries :=
  ⟨"Sweden", ⟨"SWE", some 10, "Europe"⟩, [(0, 5), (1, 3), (2, 4)]⟩

/-- The derived row of `exSeries` at date 1, where the cumulative series
decreased and the daily delta is clamped to 0. -/
def exRow : Row :=
  ⟨"Sweden", 1, 3, some 10, some 300000, some 0, some 0, some 0, some 0⟩

/-- The clamped daily series of a cumulative series as plain rationals:
entry `j` is the daily value of row `j + 1` (row 0 has no daily value). -/
def clampedDiffs (cums : List ℚ) : List ℚ :=
  List.zipWith (fun prev next => if next - prev < 0 then 0 else next - prev)
    cums cums.tail

/-- A country with a constant daily increment of 5, used in witnesses. -/
def exConst : EntitySeries :=
  ⟨"Denmark", ⟨"DNK", some 1, "Europe"⟩, [(0, 0), (1, 5), (2, 10), (3, 15)]⟩

/-- One input row to the continents stage: a derived-frame row projected
to the columns the stage reads (continent, date, cumulative value and
daily value). -/
structure DRow where
  continent : String
  date : ℕ
  value : ℚ
  daily : ℚ
deriving DecidableEq, Repr

/-- One output row of `CasesContinents.prepare_data` /
`DeathsContinents.prepare_data`: the (continent, date) sums plus the two
percentage-share columns, which are nullable because a zero denominator
produces a non-finite value. -/
structure ContRow where
  continent : String
  date : ℕ
  value : ℚ
  daily : ℚ
  pct_total : Option ℚ
  pct_daily : Option ℚ
deriving DecidableEq, Repr

/-- The date filter `df[df['date'] > min_date]`; the source uses
2020-03-01 as `min_date`. -/
def contFiltered (rows : List DRow) (minDate : ℕ) : List DRow :=
  rows.filter fun r => decide (minDate < r.date)

/-- The distinct (continent, date) keys, in first occurrence order. -/
def contKeys (rows : List DRow) : List (String × ℕ) :=
  (rows.map fun r => (r.continent, r.date)).dedup

/-- `groupby(['continent', 'date'], as_index=False)[[...]].sum()`: one row
per (continent, date) key holding the group sums of both value columns. -/
def contGrouped (rows : List DRow) : List DRow :=
  (contKeys rows).map fun k =>
    ⟨k.1, k.2,
      ((rows.filter fun r => decide (r.continent = k.1 ∧ r.date = k.2)).map
        DRow.value).sum,
      ((rows.filter fun r => decide (r.continent = k.1 ∧ r.date = k.2)).map
        DRow.daily).sum⟩

/-- `groupby('date')[value].transform(sum)` on the aggregated frame: the
cross-continent total of the cumulative values on one date. -/
def dateTotalValue (agg : List DRow) (d : ℕ) : ℚ :=
  ((agg.filter fun r => decide (r.date = d)).map DRow.value).sum

/-- Cross-continent total of the daily values on one date. -/
def dateTotalDaily (agg : List DRow) (d : ℕ) : ℚ :=
  ((agg.filter fun r => decide (r.date = d)).map DRow.daily).sum

/-- Pandas float division: a zero denominator yields a non-finite value
(NaN for 0/0, ±inf otherwise), modelled as `none`; no fallback value is
substituted anywhere in the source. -/
def pandasDiv (x y : ℚ) : Option ℚ :=
  if y = 0 then none else some (x / y)

/-- `CasesContinents.prepare_data` / `DeathsContinents.prepare_data`:
filter to dates after `minDate`, aggregate by (continent, date), and
attach each continent's percentage share of its date's cumulative and
daily cross-continent totals. -/
def continentsPrepare (rows : List DRow) (minDate : ℕ) : List ContRow :=
  let agg := contGrouped (contFiltered rows minDate)
  agg.map fun r =>
    { continent := r.continent, date := r.date, value := r.value,
      daily := r.daily,
      pct_total := (pandasDiv r.value (dateTotalValue agg r.date)).map
        (· * 100),
      pct_daily := (pandasDiv r.daily (dateTotalDaily agg r.date)).map
        (· * 100) }

/-- A one-row continents input whose daily total is zero on its date. -/
def exContRows : List DRow := [⟨"Europe", 5, 10, 0⟩]

/-- The continents output row for `exContRows`: the daily share is the
propagated undefined value, not a number. -/
def exContOut : ContRow := ⟨"Europe", 5, 10, 0, some 100, none⟩

/-- One row of the frame passed to `SummaryTables.create_df`, projected to
the columns the function reads: the country, the date, and the two
displayed variables (`var_1`, the sort variable, and `var_2`). -/
structure SnapRow where
  country : String
  date : ℕ
  v1 : ℚ
  v2 : ℚ
deriving DecidableEq, Repr

/-- `df['date'].max()`: the latest date of the frame (0 if empty). -/
def snapLatest (rows : List SnapRow) : ℕ :=
  (rows.map SnapRow.date).foldr max 0

/-- The `sort_values(var_1, ascending=False)` comparison. -/
def byV1Desc (a b : SnapRow) : Prop := b.v1 ≤ a.v1

instance : DecidableRel byV1Desc := fun a b =>
  decidable_of_iff (b.v1 ≤ a.v1) Iff.rfl

instance : IsTotal SnapRow byV1Desc where
  total a b := le_total b.v1 a.v1

instance : IsTrans SnapRow byV1Desc where
  trans _ _ _ h1 h2 := le_trans h2 h1

/-- `SummaryTables.create_df`: keep the rows of the latest date, sort them
descending by the first variable, take the first 10
(`head(10).reset_index(drop=True)`), and give each row the rank
`df.index + 1`, its 1-based position. -/
def create_df (rows : List SnapRow) : List (SnapRow × ℕ) :=
  let top := (List.insertionSort byV1Desc
    (rows.filter fun r => decide (r.date = snapLatest rows))).take 10
  top.zip (List.range' 1 top.length)

/-- Two countries tied on the sort variable at the latest date. -/
def exSnap : List SnapRow := [⟨"A", 1, 5, 0⟩, ⟨"B", 1, 5, 0⟩]

/-- Value of a cumulative series at one date: the date-equality filter of
`Recovered.create_df`, where a missing row becomes NaN after the left
merge. -/
def lookupDate (series : List (ℕ × ℚ)) (d : ℕ) : Option ℚ :=
  (series.find? fun p => decide (p.1 = d)).map Prod.snd

/-- `Recovered.create_df` per-country arithmetic: deaths are read at
`start_date` and at the latest date `today`; cases at `start_date` and at
`today` minus 20 days (`timedelta(days=20)`); the rate is the ratio of the
two differences, and a country missing any of the four values is dropped
(`dropna`). -/
def caseFatalityRate (deaths cases : List (ℕ × ℚ)) (start today : ℕ) :
    Option ℚ :=
  match lookupDate deaths start, lookupDate deaths today,
      lookupDate cases start, lookupDate cases (today - 20) with
  | some ds, some de, some cs, some ce => some ((de - ds) / (ce - cs))
  | _, _, _, _ => none

/-- Modelled from the claim's words, for comparison with the source: the
ratio of deaths accumulated over [start, today] to cases accumulated over
the lag-shifted window [start - lag, today - lag]. -/
def caseFatalityRateClaim (deaths cases : List (ℕ × ℚ))
    (start today lag : ℕ) : Option ℚ :=
  match lookupDate deaths start, lookupDate deaths today,
      lookupDate cases (start - lag), lookupDate cases (today - lag) with
  | some ds, some de, some cs, some ce => some ((de - ds) / (ce - cs))
  | _, _, _, _ => none

/-- A deaths series for the fatality-rate comparison. -/
def exDeaths : List (ℕ × ℚ) := [(30, 5), (60, 15)]

/-- A cases series on which the two windows disagree: the value at date 10
(twenty days before the start date 30) differs from the value at 30. -/
def exCases : List (ℕ × ℚ) := [(10, 80), (30, 100), (40, 110)]

/-- In a duplicate-free list, filtering for one of its members returns
exactly that member once. -/
theorem filter_eq_singleton_of_nodup {α : Type} [DecidableEq α]
    {l : List α} {a : α} (hn : l.Nodup) (ha : a ∈ l) :
    l.filter (fun x => decide (x = a)) = [a] := by
  induction l with
  | nil => cases ha
  | cons b l ih =>
      rcases List.nodup_cons.mp hn with ⟨hb, hn'⟩
      rcases List.mem_cons.mp ha with h | h
      · subst h
        have : l.filter (fun x => decide (x = a)) = [] := by
          apply List.filter_eq_nil_iff.mpr
          intro x hx
          simp only [decide_eq_true_eq]
          intro hxa
          exact hb (hxa ▸ hx)
        simp [List.filter_cons, this]
      · have hba : ¬ (b = a) := fun h' => hb (h' ▸ h)
        simp [List.filter_cons, hba, ih hn' h]

/-- **C2.** For every (country, date) key occurring among the raw sub-region
rows, the grouped table `prepare_data_1` contains exactly one row with that
key, and its value is the sum of the raw values of the key's sub-region
rows: aggregation neither duplicates keys nor changes totals. -/
theorem prepare_data_1_aggregates (rows : List RawRow) (c : String) (d : ℕ)
    (h : ∃ r ∈ rows, r.country = c ∧ r.date = d) :
    (prepare_data_1 rows).filter (fun o => decide (o.country = c ∧ o.date = d)) =
      [⟨c, d, ((rows.filter fun r => decide (r.country = c ∧ r.date = d)).map
        RawRow.value).sum⟩] := by
  have hkey : (c, d) ∈ obsKeys rows := by
    rcases h with ⟨r, hr, hc, hd⟩
    unfold obsKeys
    rw [List.mem_dedup]
    exact List.mem_map.mpr ⟨r, hr, by rw [hc, hd]⟩
  have hnodup : (obsKeys rows).Nodup := List.nodup_dedup _
  unfold prepare_data_1
  rw [List.filter_map]
  have hf : ((obsKeys rows).filter
      ((fun o : Obs => decide (o.country = c ∧ o.date = d)) ∘
        (fun k : String × ℕ => (⟨k.1, k.2, keySum rows k⟩ : Obs)))) =
      (obsKeys rows).filter (fun k => decide (k = (c, d))) := by
    apply List.filter_congr
    intro k _
    simp only [Function.comp_apply, decide_eq_decide]
    constructor
    · rintro ⟨h1, h2⟩
      exact Prod.ext h1 h2
    · rintro rfl
      exact ⟨rfl, rfl⟩
  rw [hf, filter_eq_singleton_of_nodup hnodup hkey]
  simp [keySum]

/-- Witness for `prepare_data_1_aggregates`: a country split into two
sub-region rows on the same date is aggregated into one row holding their
sum. -/
theorem prepare_data_1_aggregates_witness :
    (∃ r ∈ [RawRow.mk "Greenland" "Denmark" 3 2,
            RawRow.mk "Faroe Islands" "Denmark" 3 5,
            RawRow.mk "" "Sweden" 3 7],
      r.country = "Denmark" ∧ r.date = 3) ∧
    (prepare_data_1 [RawRow.mk "Greenland" "Denmark" 3 2,
            RawRow.mk "Faroe Islands" "Denmark" 3 5,
            RawRow.mk "" "Sweden" 3 7]).filter
        (fun o => decide (o.country = "Denmark" ∧ o.date = 3)) =
      [⟨"Denmark", 3, 7⟩] := by
  constructor
  · exact ⟨RawRow.mk "Greenland" "Denmark" 3 2, by simp, rfl, rfl⟩
  · have := prepare_data_1_aggregates
      [RawRow.mk "Greenland" "Denmark" 3 2,
       RawRow.mk "Faroe Islands" "Denmark" 3 5,
       RawRow.mk "" "Sweden" 3 7] "Denmark" 3
      ⟨RawRow.mk "Greenland" "Denmark" 3 2, by simp, rfl, rfl⟩
    rw [this]
    simp [List.filter]
    norm_num

/-- Membership in the final frame comes from some country's rows, with
every nullable column present. -/
theorem mem_prepare_data_2 {es : List EntitySeries} {r : Row}
    (hr : r ∈ prepare_data_2 es) :
    ∃ e ∈ es, r ∈ entityRows e ∧ rowComplete r = true := by
  unfold prepare_data_2 at hr
  rw [List.mem_insertionSort, List.mem_filter] at hr
  obtain ⟨hmem, hcomp⟩ := hr
  rw [List.mem_flatten] at hmem
  obtain ⟨l, hl, hrl⟩ := hmem
  rw [List.mem_map] at hl
  obtain ⟨e, he, rfl⟩ := hl
  exact ⟨e, he, hrl, hcomp⟩

/-- A row of a country's derived block is `buildRow` at an in-range
index. -/
theorem mem_entityRows {e : EntitySeries} {r : Row} (hr : r ∈ entityRows e) :
    ∃ i, i < e.obs.length ∧ r = buildRow e i := by
  unfold entityRows at hr
  rw [List.mem_map] at hr
  obtain ⟨i, hi, rfl⟩ := hr
  exact ⟨i, List.mem_range.mp hi, rfl⟩

/-- Any present value of a clamped column is non-negative. -/
theorem clampCol_getD_nonneg {col : List (Option ℚ)} {i : ℕ} {d : ℚ}
    (h : (clampCol col).getD i none = some d) : 0 ≤ d := by
  rw [List.getD_eq_getElem?_getD] at h
  unfold clampCol at h
  rw [List.getElem?_map] at h
  rcases hcol : col[i]? with _ | o
  · rw [hcol] at h; cases h
  · rw [hcol] at h
    rcases o with _ | x
    · cases h
    · simp only [Option.map_some', Option.getD_some, Option.some_inj] at h
      subst h
      by_cases hx : x < 0
      · simp [hx]
      · simp [hx, le_of_not_lt hx]

/-- Concrete evaluation: the derived row of `exSeries` at index 1. -/
theorem buildRow_exSeries_one : buildRow exSeries 1 = exRow := by
  rw [buildRow, exSeries, exRow]
  norm_num [diffCol, clampCol, rollingCol, windowVals, perMillionCol,
    List.range_succ, List.filterMap_cons, List.filterMap_nil, Row.mk.injEq]
  constructor
  · intro h; cases h
  · rw [if_neg (by simp)]
    norm_num

/-- The example row is retained by the full pipeline on `exSeries`. -/
theorem exRow_mem : exRow ∈ prepare_data_2 [exSeries] := by
  rw [prepare_data_2, List.mem_insertionSort, List.mem_filter]
  refine ⟨?_, rfl⟩
  rw [List.mem_flatten]
  refine ⟨entityRows exSeries, by simp, ?_⟩
  rw [entityRows]
  refine List.mem_map.mpr ⟨1, by simp [exSeries], ?_⟩
  rw [buildRow_exSeries_one]

/-- **C1.** Every daily value present in the derived output is
non-negative: the `np.where` clamp replaces any negative first difference
of the cumulative series (e.g. after a downward revision) with 0. -/
theorem daily_nonneg (es : List EntitySeries) (r : Row)
    (hr : r ∈ prepare_data_2 es) (d : ℚ) (hd : r.daily = some d) : 0 ≤ d := by
  obtain ⟨e, _, hre, _⟩ := mem_prepare_data_2 hr
  obtain ⟨i, hi, rfl⟩ := mem_entityRows hre
  exact clampCol_getD_nonneg (by simpa [buildRow] using hd)

/-- Witness for `daily_nonneg`: the row of `exSeries` at date 1, where the
raw cumulative series decreases from 5 to 3, is retained with daily 0. -/
theorem daily_nonneg_witness :
    exRow ∈ prepare_data_2 [exSeries] ∧ exRow.daily = some 0 ∧ (0 : ℚ) ≤ 0 :=
  ⟨exRow_mem, rfl, daily_nonneg [exSeries] exRow exRow_mem 0 rfl⟩

/-- **C10.** The derived frame is returned sorted by country name
ascending and, within a country, by date ascending: the pipeline ends with
`sort_values(['country', 'date'])`. -/
theorem prepare_data_2_sorted (es : List EntitySeries) :
    List.Sorted rowLe (prepare_data_2 es) :=
  List.sorted_insertionSort rowLe _

/-- **C3.** Every retained row has a non-null population, and its
per-capita column is exactly `cumulative / population * 1000000`. -/
theorem per_capita_correct (es : List EntitySeries) (r : Row)
    (hr : r ∈ prepare_data_2 es) :
    r.population ≠ none ∧
      ∀ p : ℚ, r.population = some p →
        r.per_capita = some (r.cumulative / p * 1000000) := by
  obtain ⟨e, _, hre, hcomp⟩ := mem_prepare_data_2 hr
  obtain ⟨i, hi, rfl⟩ := mem_entityRows hre
  have hlen : i < (e.obs.map Prod.snd).length := by simpa using hi
  constructor
  · intro hnone
    rw [rowComplete] at hcomp
    simp only [Bool.and_eq_true] at hcomp
    have hpop := hcomp.1.1.1.1.1
    rw [hnone] at hpop
    simp at hpop
  · intro p hp
    rw [buildRow] at hp ⊢
    simp only at hp ⊢
    rw [List.getD_eq_getElem _ _ hlen,
      List.getD_eq_getElem _ _ (by simpa using hi), List.getElem_map, hp]
    rfl

/-- Witness for `per_capita_correct`: the retained row of `exSeries` at
date 1 has population 10 and per-capita value `3 / 10 * 1000000`. -/
theorem per_capita_correct_witness :
    exRow ∈ prepare_data_2 [exSeries] ∧ exRow.population = some 10 ∧
      exRow.per_capita = some (exRow.cumulative / 10 * 1000000) :=
  ⟨exRow_mem, rfl, (per_capita_correct [exSeries] exRow exRow_mem).2 10 rfl⟩

/-- **C9.** A country whose series is degenerate — a single observation,
or a wholly missing population — contributes no row to the derived output:
its first (and only) row has a null daily, or all its rows have null
per-capita columns, and `dropna()` removes them. -/
theorem degenerate_entities (es : List EntitySeries) (c : String)
    (h : ∀ e ∈ es, e.country = c →
      e.obs.length = 1 ∨ e.meta.population = none) :
    ∀ r ∈ prepare_data_2 es, r.country ≠ c := by
  intro r hr hc
  obtain ⟨e, he, hre, hcomp⟩ := mem_prepare_data_2 hr
  obtain ⟨i, hi, rfl⟩ := mem_entityRows hre
  have hec : e.country = c := by
    rw [buildRow] at hc
    simpa using hc
  rw [rowComplete] at hcomp
  simp only [Bool.and_eq_true] at hcomp
  rcases h e he hec with hlen | hpop
  · have hi0 : i = 0 := by omega
    subst hi0
    have hdaily : (buildRow e 0).daily = none := by
      rw [buildRow]
      simp [diffCol, clampCol]
    rw [hdaily] at hcomp
    simpa using hcomp.1.1.1.2
  · have hp : (buildRow e i).population = none := by
      rw [buildRow]
      simpa using hpop
    rw [hp] at hcomp
    simpa using hcomp.1.1.1.1.1

/-- Witness for `degenerate_entities`: beside the normal `exSeries`
country, a one-observation country and a population-less country are in
the input; the retained example row is not theirs. -/
theorem degenerate_entities_witness :
    exRow ∈ prepare_data_2 [exSeries,
        ⟨"Norway", ⟨"NOR", some 5, "Europe"⟩, [(0, 2)]⟩,
        ⟨"Atlantis", ⟨"ATL", none, "Oceania"⟩, [(0, 1), (1, 2)]⟩] ∧
      exRow.country ≠ "Norway" := by
  have hmem : exRow ∈ prepare_data_2 [exSeries,
      ⟨"Norway", ⟨"NOR", some 5, "Europe"⟩, [(0, 2)]⟩,
      ⟨"Atlantis", ⟨"ATL", none, "Oceania"⟩, [(0, 1), (1, 2)]⟩] := by
    rw [prepare_data_2, List.mem_insertionSort, List.mem_filter]
    refine ⟨?_, rfl⟩
    rw [List.mem_flatten]
    refine ⟨entityRows exSeries, by simp, ?_⟩
    rw [entityRows]
    refine List.mem_map.mpr ⟨1, by simp [exSeries], ?_⟩
    rw [buildRow_exSeries_one]
  refine ⟨hmem, ?_⟩
  refine degenerate_entities _ "Norway" ?_ exRow hmem
  intro e he hec
  simp only [List.mem_cons, List.not_mem_nil, or_false] at he
  rcases he with rfl | rfl | rfl
  · exact absurd hec (by simp [exSeries])
  · exact Or.inl rfl
  · exact absurd hec (by simp)

/-- Filtering the identity out of a column of present values recovers the
values. -/
theorem filterMap_id_map_some {α : Type} (l : List α) :
    (l.map some).filterMap id = l := by
  induction l with
  | nil => rfl
  | cons a l ih => simp [ih]

/-- A list whose elements all equal `v` sums to its length times `v`. -/
theorem sum_const_of_all_eq {l : List ℚ} {v : ℚ} (h : ∀ x ∈ l, x = v) :
    l.sum = l.length * v := by
  induction l with
  | nil => simp
  | cons a l ih =>
      rw [List.sum_cons, ih fun x hx => h x (List.mem_cons_of_mem a hx),
        h a (List.mem_cons_self a l)]
      simp only [List.length_cons]
      push_cast
      ring

/-- The clamped daily column is a leading NaN followed by the plain
clamped differences. -/
theorem clampCol_diffCol (cums : List ℚ) :
    clampCol (diffCol cums) = none :: (clampedDiffs cums).map some := by
  unfold clampCol diffCol clampedDiffs
  simp only [List.map_cons, Option.map_none', List.map_zipWith]
  rfl

/-- The valid entries of the trailing window at index `i ≥ 1` of the daily
column are the clamped differences from index `max 0 (i - 7)` up to
`i - 1`. -/
theorem windowVals_shift (ds : List ℚ) (i : ℕ) (h1 : 1 ≤ i) :
    windowVals (none :: ds.map some) i = (ds.take i).drop (i - 7) := by
  unfold windowVals
  obtain ⟨j, rfl⟩ : ∃ j, i = j + 1 := ⟨i - 1, by omega⟩
  rw [List.take_succ_cons, ← List.map_take]
  rcases Nat.lt_or_ge (j + 1) 7 with h7 | h7
  · have e1 : j + 1 + 1 - 7 = 0 := by omega
    have e2 : j + 1 - 7 = 0 := by omega
    rw [e1, e2, List.drop_zero, List.drop_zero, List.filterMap_cons]
    exact filterMap_id_map_some _
  · have e1 : j + 1 + 1 - 7 = (j + 1 - 7) + 1 := by omega
    rw [e1, List.drop_succ_cons, ← List.map_drop]
    exact filterMap_id_map_some _

/-- Length of the trailing daily window at index `i`: `min i 7`. -/
theorem window_length (cums : List ℚ) (i : ℕ) (hi : i < cums.length) :
    (((clampedDiffs cums).take i).drop (i - 7)).length = min i 7 := by
  have hds : (clampedDiffs cums).length = cums.length - 1 := by
    unfold clampedDiffs
    rw [List.length_zipWith, List.length_tail]
    omega
  rw [List.length_drop, List.length_take]
  omega

/-- The rolling mean at an in-range index `i ≥ 1` is the sum of the
trailing clamped differences divided by the window size `min i 7`. -/
theorem rollingCol_clamped (cums : List ℚ) (i : ℕ) (h1 : 1 ≤ i)
    (hi : i < cums.length) :
    (rollingCol (clampCol (diffCol cums))).getD i none =
      some ((((clampedDiffs cums).take i).drop (i - 7)).sum / ((min i 7 : ℕ) : ℚ)) := by
  have hds : (clampedDiffs cums).length = cums.length - 1 := by
    unfold clampedDiffs
    rw [List.length_zipWith, List.length_tail]
    omega
  have hcol : (clampCol (diffCol cums)).length = cums.length := by
    rw [clampCol_diffCol]
    simp only [List.length_cons, List.length_map, hds]
    omega
  have hwin : windowVals (clampCol (diffCol cums)) i =
      ((clampedDiffs cums).take i).drop (i - 7) := by
    rw [clampCol_diffCol]
    exact windowVals_shift _ i h1
  have hlen := window_length cums i hi
  unfold rollingCol
  rw [List.getD_eq_getElem _ _ (by simpa [hcol] using hi), List.getElem_map,
    List.getElem_range]
  show (if (windowVals (clampCol (diffCol cums)) i).length = 0 then none
    else some ((windowVals (clampCol (diffCol cums)) i).sum /
      ((windowVals (clampCol (diffCol cums)) i).length : ℚ))) = _
  rw [hwin, hlen, if_neg (by omega)]

/-- **C7.** In general the rolling column of a country equals, at every
row with a daily value, the arithmetic mean of the clamped daily values
over the trailing window of at most 7 rows (the window shrinks to `i`
values near the series start, minimum 1); in particular, on a country
whose daily series is constant with value `v`, it equals `v` on every such
row. -/
theorem rolling7_mean (e : EntitySeries) :
    (∀ i, 1 ≤ i → i < e.obs.length →
      ((entityRows e).getD i defaultRow).rolling7 =
        some ((((clampedDiffs (e.obs.map Prod.snd)).take i).drop (i - 7)).sum /
          ((min i 7 : ℕ) : ℚ))) ∧
    (∀ v : ℚ, (∀ d ∈ clampedDiffs (e.obs.map Prod.snd), d = v) →
      ∀ i, 1 ≤ i → i < e.obs.length →
        ((entityRows e).getD i defaultRow).rolling7 = some v) := by
  have hlen : (e.obs.map Prod.snd).length = e.obs.length := List.length_map _ _
  have part1 : ∀ i, 1 ≤ i → i < e.obs.length →
      ((entityRows e).getD i defaultRow).rolling7 =
        some ((((clampedDiffs (e.obs.map Prod.snd)).take i).drop (i - 7)).sum /
          ((min i 7 : ℕ) : ℚ)) := by
    intro i h1 hi
    have hrow : (entityRows e).getD i defaultRow = buildRow e i := by
      unfold entityRows
      rw [List.getD_eq_getElem _ _ (by simpa using hi), List.getElem_map,
        List.getElem_range]
    rw [hrow]
    show (rollingCol (clampCol (diffCol (e.obs.map Prod.snd)))).getD i none = _
    exact rollingCol_clamped _ i h1 (by omega)
  refine ⟨part1, ?_⟩
  intro v hv i h1 hi
  rw [part1 i h1 hi]
  have hall : ∀ x ∈ ((clampedDiffs (e.obs.map Prod.snd)).take i).drop (i - 7),
      x = v := fun x hx =>
    hv x (List.mem_of_mem_take (List.mem_of_mem_drop hx))
  rw [sum_const_of_all_eq hall, window_length _ i (by omega)]
  have hne : ((min i 7 : ℕ) : ℚ) ≠ 0 := by
    rw [Nat.cast_ne_zero]
    omega
  rw [mul_div_cancel_left₀ v hne]

/-- Witness for `rolling7_mean`: `exConst` has constant daily value 5, and
its rolling column at row 2 evaluates to 5. -/
theorem rolling7_mean_witness :
    ((entityRows exConst).getD 2 defaultRow).rolling7 = some 5 := by
  have hconst : ∀ d ∈ clampedDiffs (exConst.obs.map Prod.snd), d = 5 := by
    norm_num [exConst, clampedDiffs]
  exact (rolling7_mean exConst).2 5 hconst 2 (by norm_num)
    (by norm_num [exConst])

/-- A mapped pandas division is undefined exactly when the denominator is
zero. -/
theorem pandasDiv_map_eq_none (x y : ℚ) (f : ℚ → ℚ) :
    (pandasDiv x y).map f = none ↔ y = 0 := by
  unfold pandasDiv
  by_cases h : y = 0 <;> simp [h]

/-- Evaluation of the continents stage on `exContRows`. -/
theorem continentsPrepare_exContRows_eval :
    continentsPrepare exContRows 0 = [exContOut] := by
  norm_num [continentsPrepare, contGrouped, contFiltered, contKeys,
    dateTotalValue, dateTotalDaily, pandasDiv, exContRows, exContOut,
    List.filter, List.dedup]

/-- **C6 (counterexample).** The claim that a zero cross-continent total is
given an explicit deterministic fallback share fails: on an input whose
only date has daily total 0, the daily share of the output row is the
propagated undefined division result, not a fallback value. -/
theorem continents_no_fallback_counterexample :
    (continentsPrepare exContRows 0).map ContRow.pct_daily = [none] := by
  rw [continentsPrepare_exContRows_eval]
  rfl

/-- **C6 (amended).** The continents stage applies no fallback: a row's
share column is the propagated undefined (non-finite) value exactly when
the corresponding cross-continent total on its date is zero, and the exact
quotient times 100 otherwise. -/
theorem continents_zero_total (rows : List DRow) (minDate : ℕ) (r : ContRow)
    (hr : r ∈ continentsPrepare rows minDate) :
    (r.pct_total = none ↔
      dateTotalValue (contGrouped (contFiltered rows minDate)) r.date = 0) ∧
    (r.pct_daily = none ↔
      dateTotalDaily (contGrouped (contFiltered rows minDate)) r.date = 0) := by
  unfold continentsPrepare at hr
  rw [List.mem_map] at hr
  obtain ⟨a, _, rfl⟩ := hr
  exact ⟨pandasDiv_map_eq_none _ _ _, pandasDiv_map_eq_none _ _ _⟩

/-- Witness for `continents_zero_total`: the output row of `exContRows`
has an undefined daily share because its date's daily total is zero, and a
defined total share because its cumulative total is 10. -/
theorem continents_zero_total_witness :
    exContOut ∈ continentsPrepare exContRows 0 ∧
      exContOut.pct_daily = none ∧ exContOut.pct_total ≠ none := by
  have hmem : exContOut ∈ continentsPrepare exContRows 0 := by
    rw [continentsPrepare_exContRows_eval]
    simp
  refine ⟨hmem, ?_, by simp [exContOut]⟩
  refine (continents_zero_total exContRows 0 exContOut hmem).2.mpr ?_
  norm_num [dateTotalDaily, contGrouped, contFiltered, contKeys, exContRows,
    exContOut, List.filter, List.dedup]

/-- A filterMap whose function is total on the list is a map. -/
theorem filterMap_eq_map_of_some {α β : Type} {g : α → Option β} {f : α → β}
    {l : List α} (h : ∀ a ∈ l, g a = some (f a)) : l.filterMap g = l.map f := by
  induction l with
  | nil => rfl
  | cons a l ih =>
      simp only [List.filterMap_cons, h a (List.mem_cons_self a l),
        List.map_cons]
      rw [ih fun x hx => h x (List.mem_cons_of_mem a hx)]

/-- Summing a list mapped through a right-scaled function scales the
mapped sum. -/
theorem sum_map_mul_const {α : Type} (l : List α) (f : α → ℚ) (c : ℚ) :
    (l.map fun x => f x * c).sum = (l.map f).sum * c := by
  induction l with
  | nil => simp
  | cons a l ih => simp [ih, add_mul]

/-- The shares built from any value projection of the aggregated frame sum
to 100 on a date with non-zero total. -/
theorem shares_sum_helper (agg : List DRow) (d : ℕ) (f : DRow → ℚ)
    (hT : ((agg.filter fun r => decide (r.date = d)).map f).sum ≠ 0) :
    ((agg.filter fun r => decide (r.date = d)).map
      (fun a => f a / ((agg.filter fun r => decide (r.date = d)).map f).sum
        * 100)).sum = 100 := by
  have hpt : (fun a : DRow => f a /
      ((agg.filter fun r => decide (r.date = d)).map f).sum * 100) =
      fun a : DRow => f a *
        (100 / ((agg.filter fun r => decide (r.date = d)).map f).sum) :=
    funext fun a => by rw [div_mul_eq_mul_div, mul_div_assoc]
  rw [hpt, sum_map_mul_const, mul_comm, div_mul_cancel₀ _ hT]

/-- **C8.** For any date of the continent aggregate output whose
cross-continent totals are non-zero, the share-of-total percentages of its
rows sum exactly to 100, and so do the share-of-daily percentages. -/
theorem continents_shares_sum (rows : List DRow) (minDate : ℕ) (d : ℕ)
    (hT : dateTotalValue (contGrouped (contFiltered rows minDate)) d ≠ 0)
    (hD : dateTotalDaily (contGrouped (contFiltered rows minDate)) d ≠ 0) :
    (((continentsPrepare rows minDate).filter
        fun r => decide (r.date = d)).filterMap ContRow.pct_total).sum = 100 ∧
    (((continentsPrepare rows minDate).filter
        fun r => decide (r.date = d)).filterMap ContRow.pct_daily).sum = 100 := by
  have hfilter : (continentsPrepare rows minDate).filter
      (fun r => decide (r.date = d)) =
      ((contGrouped (contFiltered rows minDate)).filter
        fun a => decide (a.date = d)).map
        (fun r => ContRow.mk r.continent r.date r.value r.daily
          ((pandasDiv r.value (dateTotalValue
            (contGrouped (contFiltered rows minDate)) r.date)).map (· * 100))
          ((pandasDiv r.daily (dateTotalDaily
            (contGrouped (contFiltered rows minDate)) r.date)).map (· * 100))) := by
    unfold continentsPrepare
    rw [List.filter_map]
    rfl
  constructor
  · rw [hfilter, List.filterMap_map]
    rw [filterMap_eq_map_of_some (f := fun a : DRow => a.value /
        dateTotalValue (contGrouped (contFiltered rows minDate)) d * 100) ?_]
    · exact shares_sum_helper _ d DRow.value hT
    · intro a ha
      have had : a.date = d := by
        have := (List.mem_filter.mp ha).2
        simpa using this
      show (pandasDiv a.value (dateTotalValue
        (contGrouped (contFiltered rows minDate)) a.date)).map (· * 100) = _
      rw [had]
      unfold pandasDiv
      rw [if_neg hT]
      rfl
  · rw [hfilter, List.filterMap_map]
    rw [filterMap_eq_map_of_some (f := fun a : DRow => a.daily /
        dateTotalDaily (contGrouped (contFiltered rows minDate)) d * 100) ?_]
    · exact shares_sum_helper _ d DRow.daily hD
    · intro a ha
      have had : a.date = d := by
        have := (List.mem_filter.mp ha).2
        simpa using this
      show (pandasDiv a.daily (dateTotalDaily
        (contGrouped (contFiltered rows minDate)) a.date)).map (· * 100) = _
      rw [had]
      unfold pandasDiv
      rw [if_neg hD]
      rfl

/-- Witness for `continents_shares_sum`: two continents on one date with
cumulative values 30 and 10 and daily values 3 and 1; both share columns
sum to 100. -/
theorem continents_shares_sum_witness :
    dateTotalValue (contGrouped (contFiltered
      [⟨"Europe", 5, 30, 3⟩, ⟨"Asia", 5, 10, 1⟩] 0)) 5 ≠ 0 ∧
    (((continentsPrepare [⟨"Europe", 5, 30, 3⟩, ⟨"Asia", 5, 10, 1⟩] 0).filter
      fun r => decide (r.date = 5)).filterMap ContRow.pct_total).sum = 100 := by
  have hkeys : contKeys (contFiltered
      [⟨"Europe", 5, 30, 3⟩, ⟨"Asia", 5, 10, 1⟩] 0) =
      [("Europe", 5), ("Asia", 5)] := by
    simp [contKeys, contFiltered, List.dedup_cons_of_not_mem]
  have hgr : contGrouped (contFiltered
      [⟨"Europe", 5, 30, 3⟩, ⟨"Asia", 5, 10, 1⟩] 0) =
      [⟨"Europe", 5, 30, 3⟩, ⟨"Asia", 5, 10, 1⟩] := by
    rw [contGrouped, hkeys]
    simp [List.filter_cons, contFiltered]
  have hT : dateTotalValue (contGrouped (contFiltered
      [⟨"Europe", 5, 30, 3⟩, ⟨"Asia", 5, 10, 1⟩] 0)) 5 ≠ 0 := by
    rw [hgr]
    norm_num [dateTotalValue]
  have hD : dateTotalDaily (contGrouped (contFiltered
      [⟨"Europe", 5, 30, 3⟩, ⟨"Asia", 5, 10, 1⟩] 0)) 5 ≠ 0 := by
    rw [hgr]
    norm_num [dateTotalDaily]
  exact ⟨hT, (continents_shares_sum
    [⟨"Europe", 5, 30, 3⟩, ⟨"Asia", 5, 10, 1⟩] 0 5 hT hD).1⟩

/-- Evaluation of `create_df` on the tied input: the two tied rows receive
the distinct positional ranks 1 and 2. -/
theorem create_df_exSnap_eval :
    create_df exSnap = [(⟨"A", 1, 5, 0⟩, 1), (⟨"B", 1, 5, 0⟩, 2)] := by
  have hlatest : snapLatest exSnap = 1 := by
    simp [snapLatest, exSnap]
  rw [create_df, hlatest]
  norm_num [exSnap, List.filter_cons, List.insertionSort, List.orderedInsert,
    byV1Desc, List.range']

/-- **C5 (counterexample).** The ranks of `create_df` are not dense: two
rows tied on the sort variable receive the distinct ranks 1 and 2, where
dense ranking would give both rank 1. -/
theorem create_df_not_dense :
    ∃ p ∈ create_df exSnap, ∃ q ∈ create_df exSnap,
      p.1.v1 = q.1.v1 ∧ p.2 ≠ q.2 := by
  rw [create_df_exSnap_eval]
  exact ⟨(⟨"A", 1, 5, 0⟩, 1), by simp, (⟨"B", 1, 5, 0⟩, 2), by simp, rfl,
    by norm_num⟩

/-- **C5 (amended).** `create_df` keeps exactly the rows of the most
recent date, sorted descending by the sort variable, cut to the first 10,
and gives the row at 0-based position `j` the ordinal rank `j + 1`: ranks
are positions (ties get distinct consecutive ranks), not dense ranks. -/
theorem create_df_correct (rows : List SnapRow) :
    (∀ p ∈ create_df rows, p.1.date = snapLatest rows ∧ p.1 ∈ rows) ∧
    (create_df rows).map Prod.snd = List.range' 1 (create_df rows).length ∧
    (create_df rows).length =
      min (rows.filter fun r => decide (r.date = snapLatest rows)).length 10 ∧
    List.Sorted byV1Desc ((create_df rows).map Prod.fst) := by
  have hlen : (List.range' 1 ((List.insertionSort byV1Desc
      (rows.filter fun r => decide (r.date = snapLatest rows))).take 10).length).length =
      ((List.insertionSort byV1Desc
      (rows.filter fun r => decide (r.date = snapLatest rows))).take 10).length :=
    List.length_range' _ _ _
  have hfst : (create_df rows).map Prod.fst = (List.insertionSort byV1Desc
      (rows.filter fun r => decide (r.date = snapLatest rows))).take 10 := by
    rw [create_df]
    exact List.map_fst_zip _ _ (le_of_eq hlen.symm)
  have hzlen : (create_df rows).length = ((List.insertionSort byV1Desc
      (rows.filter fun r => decide (r.date = snapLatest rows))).take 10).length := by
    rw [create_df, List.length_zip, hlen, Nat.min_self]
  refine ⟨?_, ?_, ?_, ?_⟩
  · intro p hp
    rw [create_df] at hp
    have hp1 := (List.of_mem_zip hp).1
    have hp1' : p.1 ∈ rows.filter fun r => decide (r.date = snapLatest rows) :=
      (List.mem_insertionSort byV1Desc).mp (List.take_subset _ _ hp1)
    have := List.mem_filter.mp hp1'
    exact ⟨by simpa using this.2, this.1⟩
  · rw [hzlen, create_df]
    exact List.map_snd_zip _ _ (le_of_eq hlen)
  · rw [hzlen, List.length_take]
    have : (List.insertionSort byV1Desc
        (rows.filter fun r => decide (r.date = snapLatest rows))).length =
        (rows.filter fun r => decide (r.date = snapLatest rows)).length :=
      (List.perm_insertionSort byV1Desc _).length_eq
    rw [this, Nat.min_comm]
  · rw [hfst]
    exact (List.sorted_insertionSort byV1Desc _).sublist (List.take_sublist _ _)

/-- Witness for `create_df_correct`: the first output pair of the tied
example is a latest-date row of the input. -/
theorem create_df_correct_witness :
    ((⟨"A", 1, 5, 0⟩ : SnapRow), 1) ∈ create_df exSnap ∧
      (⟨"A", 1, 5, 0⟩ : SnapRow).date = snapLatest exSnap ∧
      (⟨"A", 1, 5, 0⟩ : SnapRow) ∈ exSnap := by
  have hmem : ((⟨"A", 1, 5, 0⟩ : SnapRow), 1) ∈ create_df exSnap := by
    rw [create_df_exSnap_eval]
    simp
  exact ⟨hmem, (create_df_correct exSnap).1 _ hmem⟩

/-- **C4.** The fatality-rate window of `Recovered.create_df` evaluated on
concrete series: the source divides by the cases accumulated from
`start_date` (not `start_date - 20` as its own comment and the
specification state), so the code result 1 differs from the claimed
lag-shifted result 1/3. -/
theorem caseFatalityRate_lag_divergence :
    caseFatalityRate exDeaths exCases 30 60 = some 1 ∧
    caseFatalityRateClaim exDeaths exCases 30 60 20 = some (1 / 3) ∧
    caseFatalityRate exDeaths exCases 30 60 ≠
      caseFatalityRateClaim exDeaths exCases 30 60 20 := by
  have h1 : caseFatalityRate exDeaths exCases 30 60 = some 1 := by
    rw [caseFatalityRate]
    norm_num [lookupDate, exDeaths, exCases, List.find?]
  have h2 : caseFatalityRateClaim exDeaths exCases 30 60 20 = some (1 / 3) := by
    rw [caseFatalityRateClaim]
    norm_num [lookupDate, exDeaths, exCases, List.find?]
  refine ⟨h1, h2, ?_⟩
  rw [h1, h2]
  norm_num

end Covid
